import Mathlib

set_option linter.unusedVariables false

/-!
Shallow embedding of the AI-assisted expense-categorization logic of the
repository (src/lib/ai.ts and src/app/actions/suggestCategory.ts).

The remote chat-completion call is modelled by its outcome: a value of
`Except RemoteError (Option String)` — `.ok content` is a completed HTTP
round trip whose message content may be absent (null), `.error e` is a
thrown error carrying the duck-typed numeric `status`/`code` fields the
source inspects.  JSON.parse of the insight array is modelled by an
arbitrary parameter `parse : String → Option (List RawInsight)`:
`none` is a parse failure (the thrown SyntaxError carries no status/code),
`some l` a successfully parsed array of raw insight objects.

JavaScript string operations are modelled over the character lists of the
strings (ASCII fragment of the JS semantics).
-/

namespace ReactAi

/-- JavaScript whitespace (the ASCII part of `\s` / `trim`). -/
def jsIsWs (c : Char) : Bool :=
  c == ' ' || c == '\t' || c == '\n' || c == '\r' || c == '\x0b' || c == '\x0c'

/-- `charsStartWith l pre`: the list `l` starts with `pre`. -/
def charsStartWith : List Char → List Char → Bool
  | _, [] => true
  | [], _ :: _ => false
  | c :: cs, d :: ds => c == d && charsStartWith cs ds

/-- `charsContain l sub`: `sub` occurs as a contiguous run inside `l`
(JavaScript `String.prototype.includes`). -/
def charsContain : List Char → List Char → Bool
  | [], needle => needle.isEmpty
  | c :: cs, needle => charsStartWith (c :: cs) needle || charsContain cs needle

/-- Drop leading JS whitespace. -/
def wsDropLeft (l : List Char) : List Char := l.dropWhile jsIsWs

/-- Drop trailing JS whitespace. -/
def wsDropRight (l : List Char) : List Char := (l.reverse.dropWhile jsIsWs).reverse

/-- JS `trim` over character lists. -/
def trimChars (l : List Char) : List Char := wsDropRight (wsDropLeft l)

/-- JavaScript `s.trim()`. -/
def jsTrim (s : String) : String := ⟨trimChars s.data⟩

/-- JavaScript `s.toLowerCase()` (ASCII fragment). -/
def jsToLower (s : String) : String := ⟨s.data.map Char.toLower⟩

/-- JavaScript `s.includes(sub)`. -/
def strIncludes (s sub : String) : Bool := charsContain s.data sub.data

/-- JavaScript `s.startsWith(pre)`. -/
def jsStartsWith (s pre : String) : Bool := charsStartWith s.data pre.data

/-! ### The keyword classifier (`categorizeExpenseLocally`, src/lib/ai.ts) -/

def foodKeywords : List String :=
  ["restaurant", "food", "coffee", "lunch", "dinner", "breakfast", "cafe", "pizza",
   "burger", "sandwich", "grocery", "supermarket", "market", "bakery", "bar", "pub",
   "drink", "beer", "wine", "snack", "meal", "eat", "dining", "takeout", "delivery",
   "mcdonalds", "starbucks", "subway", "kfc", "dominos", "uber eats", "doordash",
   "grubhub", "postmates", "foodpanda", "zomato", "swiggy"]

def transportKeywords : List String :=
  ["gas", "fuel", "petrol", "diesel", "uber", "lyft", "taxi", "bus", "train", "metro",
   "parking", "toll", "car", "vehicle", "transport", "flight", "airline", "plane",
   "airport", "rental", "maintenance", "repair", "oil change", "tire", "insurance",
   "registration", "license", "subway", "public transport", "ride share", "carpool"]

def entertainmentKeywords : List String :=
  ["movie", "cinema", "theater", "concert", "music", "game", "gaming", "netflix",
   "spotify", "youtube", "entertainment", "fun", "party", "club", "event", "ticket",
   "show", "performance", "festival", "amusement", "park", "zoo", "museum", "gallery",
   "bowling", "pool", "arcade", "subscription", "streaming", "hulu", "disney", "prime"]

def shoppingKeywords : List String :=
  ["amazon", "ebay", "shop", "store", "mall", "clothing", "clothes", "shoes", "dress",
   "shirt", "pants", "jacket", "electronics", "phone", "laptop", "computer", "gadget",
   "book", "furniture", "home", "decor", "gift", "present", "online", "purchase",
   "buy", "walmart", "target", "costco", "nike", "adidas", "apple", "samsung", "sony"]

def billsKeywords : List String :=
  ["electric", "electricity", "power", "water", "gas bill", "internet", "wifi",
   "phone bill", "mobile", "cable", "tv", "utility", "utilities", "rent", "mortgage",
   "insurance", "loan", "payment", "subscription", "service", "maintenance", "repair",
   "bank", "fee", "charge", "bill", "invoice", "statement", "credit card"]

def healthcareKeywords : List String :=
  ["doctor", "hospital", "medical", "medicine", "pharmacy", "drug", "prescription",
   "health", "dental", "dentist", "clinic", "appointment", "checkup", "surgery",
   "treatment", "therapy", "insurance", "copay", "deductible", "medication", "pills",
   "vitamins", "supplements", "nurse", "specialist", "emergency", "urgent care"]

/-- `categorizeExpenseLocally` (src/lib/ai.ts lines 154–227): lowercase and
trim the description, then return the first category in the fixed order
Food, Transportation, Entertainment, Shopping, Bills, Healthcare whose
keyword list has a substring match, else "Other". -/
def categorizeExpenseLocally (description : String) : String :=
  let desc := jsTrim (jsToLower description)
  if foodKeywords.any (fun keyword => strIncludes desc keyword) then "Food"
  else if transportKeywords.any (fun keyword => strIncludes desc keyword) then "Transportation"
  else if entertainmentKeywords.any (fun keyword => strIncludes desc keyword) then "Entertainment"
  else if shoppingKeywords.any (fun keyword => strIncludes desc keyword) then "Shopping"
  else if billsKeywords.any (fun keyword => strIncludes desc keyword) then "Bills"
  else if healthcareKeywords.any (fun keyword => strIncludes desc keyword) then "Healthcare"
  else "Other"

/-- The keyword lists paired with their categories, in the priority order the
source checks them. -/
def keywordTable : List (String × List String) :=
  [("Food", foodKeywords), ("Transportation", transportKeywords),
   ("Entertainment", entertainmentKeywords), ("Shopping", shoppingKeywords),
   ("Bills", billsKeywords), ("Healthcare", healthcareKeywords)]

/-! ### Errors thrown by the remote call -/

/-- A thrown error as the source inspects it: `error?.status === 429 ||
error?.code === 429` duck-types two optional numeric fields. -/
structure RemoteError where
  status : Option Int
  code : Option Int
deriving DecidableEq

/-- The rate-limit test applied in every catch block of src/lib/ai.ts. -/
def isRateLimitError (e : RemoteError) : Bool :=
  e.status == some 429 || e.code == some 429

/-! ### `categorizeExpense` (src/lib/ai.ts lines 229–277) -/

def validCategories : List String :=
  ["Food", "Transportation", "Entertainment", "Shopping", "Bills", "Healthcare", "Other"]

/-- `categorizeExpense`: on success, trim the (possibly absent) content and
validate it against `validCategories` (an absent content validates as the
empty string, which is not in the list); on any thrown error — rate limit or
not — fall back to the local keyword classifier. -/
def categorizeExpense (remote : Except RemoteError (Option String))
    (description : String) : String :=
  match remote with
  | .ok content =>
    let category := (content.map jsTrim).getD ""
    if validCategories.contains category then category else "Other"
  | .error e =>
    if isRateLimitError e then categorizeExpenseLocally description
    else categorizeExpenseLocally description

/-! ### `generateExpenseInsights` (src/lib/ai.ts lines 37–151) -/

/-- `ExpenseRecord` (src/lib/ai.ts lines 20–26). -/
structure ExpenseRecord where
  id : String
  amount : Rat
  category : String
  description : String
  date : String
deriving DecidableEq

/-- `RawInsight` (src/lib/ai.ts lines 3–9): one element of the parsed JSON
array; every field may be absent. -/
structure RawInsight where
  type : Option String
  title : Option String
  message : Option String
  action : Option String
  confidence : Option Rat
deriving DecidableEq

/-- `AIInsight` (src/lib/ai.ts lines 28–35). -/
structure AIInsight where
  id : String
  type : String
  title : String
  message : String
  action : Option String
  confidence : Rat
deriving DecidableEq

/-- JavaScript `v || d` for an optional string: absent and the empty string
are falsy. -/
def strOrDefault (v : Option String) (d : String) : String :=
  match v with
  | none => d
  | some s => if s == "" then d else s

/-- JavaScript `v || d` for an optional number: absent and 0 are falsy. -/
def numOrDefault (v : Option Rat) (d : Rat) : Rat :=
  match v with
  | none => d
  | some x => if x == 0 then d else x

/-- The per-element formatting step of `generateExpenseInsights` (lines
108–117): a fresh id from the timestamp and index, and `||`-defaults for the
type, title, message and confidence fields. -/
def formatInsight (now index : Nat) (insight : RawInsight) : AIInsight :=
  { id := "ai-" ++ toString now ++ "-" ++ toString index
    type := strOrDefault insight.type "info"
    title := strOrDefault insight.title "AI Insight"
    message := strOrDefault insight.message "Analysis complete"
    action := insight.action
    confidence := numOrDefault insight.confidence 0.8 }

/-- The backquote character. -/
def fenceChar : Char := Char.ofNat 96

/-- A triple backquote, the Markdown code fence. -/
def fence3 : List Char := [fenceChar, fenceChar, fenceChar]

/-- The characters of a backquoted json fence opener. -/
def fenceJson : List Char := fence3 ++ "json".data

/-- Drop the last `n` characters. -/
def dropRightN (l : List Char) (n : Nat) : List Char := (l.reverse.drop n).reverse

/-- `charsEndWith l suf`: the list `l` ends with `suf`. -/
def charsEndWith (l suf : List Char) : Bool := charsStartWith l.reverse suf.reverse

/-- The `replace(/\s*` + three backquotes + `$/, '')` step: when the text ends
with a fence, remove it together with the whitespace run before it. -/
def stripClosingFence (l : List Char) : List Char :=
  if charsEndWith l fence3 then wsDropRight (dropRightN l 3) else l

/-- The response-cleaning step of `generateExpenseInsights` (lines 92–102):
trim, then strip a leading json or plain code fence (with the whitespace
after it) and, in either fence branch, a trailing fence. -/
def cleanChars (l : List Char) : List Char :=
  let c := trimChars l
  if charsStartWith c fenceJson then stripClosingFence (wsDropLeft (c.drop 7))
  else if charsStartWith c fence3 then stripClosingFence (wsDropLeft (c.drop 3))
  else c

/-- The cleaned response text handed to `JSON.parse`. -/
def cleanResponse (response : String) : String := ⟨cleanChars response.data⟩

/-- The canned rate-limit insight (lines 126–136). -/
def rateLimitInsight : AIInsight :=
  { id := "fallback-rate-limit"
    type := "warning"
    title := "AI Analysis Rate Limited"
    message := "AI service is temporarily rate limited. Your expenses are still being tracked normally. Try refreshing in a few minutes."
    action := some "Try again later"
    confidence := 0.7 }

/-- The canned generic-failure insight (lines 139–149). -/
def unavailableInsight : AIInsight :=
  { id := "fallback-1"
    type := "info"
    title := "AI Analysis Unavailable"
    message := "Unable to generate personalized insights at this time. Please try again later."
    action := some "Refresh insights"
    confidence := 0.5 }

/-- `generateExpenseInsights`: on a thrown error, the 429 test picks the
rate-limit or the generic canned insight; an absent content throws an `Error`
without status/code, landing in the generic branch; otherwise the content is
cleaned, parsed (a parse failure throws a `SyntaxError` without status/code,
landing in the generic branch) and formatted element by element. -/
def generateExpenseInsights (expenses : List ExpenseRecord)
    (parse : String → Option (List RawInsight)) (now : Nat)
    (remote : Except RemoteError (Option String)) : List AIInsight :=
  match remote with
  | .error e => if isRateLimitError e then [rateLimitInsight] else [unavailableInsight]
  | .ok none => [unavailableInsight]
  | .ok (some response) =>
    match parse (cleanResponse response) with
    | none => [unavailableInsight]
    | some insights => insights.mapIdx (fun index insight => formatInsight now index insight)

/-! ### `generateAIAnswer` (src/lib/ai.ts lines 279–337) -/

/-- The fixed rate-limit advisory string (line 332). -/
def rateLimitAnswer : String :=
  "The AI service is currently rate limited. Your question will be answered once the service is available again. Please try again in a few minutes."

/-- The fixed generic advisory string (line 335). -/
def unavailableAnswer : String :=
  "I'm unable to provide a detailed answer at the moment. Please try refreshing the insights or check your connection."

/-- `generateAIAnswer`: on success, the trimmed content; an absent content
throws an `Error` without status/code, landing in the generic branch; a
thrown error picks the rate-limit or the generic advisory string. -/
def generateAIAnswer (question : String) (context : List ExpenseRecord)
    (remote : Except RemoteError (Option String)) : String :=
  match remote with
  | .ok none => unavailableAnswer
  | .ok (some response) => jsTrim response
  | .error e => if isRateLimitError e then rateLimitAnswer else unavailableAnswer

/-! ### `suggestCategory` (src/app/actions/suggestCategory.ts) -/

/-- The `{ category, error? }` pair the server action returns. -/
structure SuggestResult where
  category : String
  error : Option String
deriving DecidableEq

/-- `suggestCategory`: reject empty or too-short (trimmed length < 2)
descriptions without calling the categorizer; otherwise categorize the
trimmed description.  `categorizeExpense` is total in the model, so the
surrounding try/catch of the source is unreachable and not modelled. -/
def suggestCategory (remote : Except RemoteError (Option String))
    (description : String) : SuggestResult :=
  if description == "" || (jsTrim description).length < 2 then
    { category := "Other", error := some "Description too short for analysis" }
  else
    let category := categorizeExpense remote (jsTrim description)
    if category != "" && category != "Other" then
      { category := category, error := none }
    else if category == "Other" then
      { category := category, error := none }
    else
      { category := "Other", error := some "Could not determine category" }

/-! ## Helper lemmas shared by several claims -/

/-- Every result of the keyword classifier lies in the closed category set. -/
theorem categorizeExpenseLocally_mem (description : String) :
    categorizeExpenseLocally description ∈ validCategories := by
  unfold categorizeExpenseLocally
  dsimp only
  split_ifs <;> simp [validCategories]

/-- Every result of `categorizeExpense` lies in the closed category set. -/
theorem categorizeExpense_mem (remote : Except RemoteError (Option String))
    (description : String) : categorizeExpense remote description ∈ validCategories := by
  cases remote with
  | error e =>
    have h := categorizeExpenseLocally_mem description
    by_cases hr : isRateLimitError e <;> simpa [categorizeExpense, hr]
  | ok content =>
    simp only [categorizeExpense]
    split
    · next h => simpa using h
    · simp [validCategories]

/-- On a successful parse, `generateExpenseInsights` is the parsed list
formatted element by element. -/
theorem generateExpenseInsights_parse_ok (expenses : List ExpenseRecord)
    (parse : String → Option (List RawInsight)) (now : Nat) (response : String)
    (l : List RawInsight) (h : parse (cleanResponse response) = some l) :
    generateExpenseInsights expenses parse now (.ok (some response)) =
      l.mapIdx (fun index insight => formatInsight now index insight) := by
  simp [generateExpenseInsights, h]

/-! ## The claims -/

/-- C1: whenever the remote chat-completion call inside `categorizeExpense`
fails with any thrown error — rate limit (429) or otherwise — the function
returns exactly what the local keyword classifier returns; in particular a
simulated rate-limit error during categorization of "Dinner at a restaurant"
yields "Food", the same as the classifier alone. -/
theorem categorizeExpense_error_fallback :
    (∀ (description : String) (e : RemoteError),
        categorizeExpense (.error e) description = categorizeExpenseLocally description) ∧
    categorizeExpense (.error { status := some 429, code := none }) "Dinner at a restaurant"
      = "Food" ∧
    categorizeExpenseLocally "Dinner at a restaurant" = "Food" := by
  refine ⟨fun description e => ?_, by decide, by decide⟩
  simp [categorizeExpense]

/-- C2: every failure path of `generateExpenseInsights` yields exactly one
canned insight: a thrown error with numeric status/code 429 yields the
rate-limit warning (id "fallback-rate-limit", type "warning", confidence
0.7); any other thrown error, an absent response content, or a parse failure
yields the generic insight (id "fallback-1", type "info", confidence 0.5).
The function is total, so no error reaches the caller. -/
theorem generateExpenseInsights_error_fallback :
    (∀ (expenses : List ExpenseRecord) (parse : String → Option (List RawInsight))
        (now : Nat) (e : RemoteError),
        generateExpenseInsights expenses parse now (.error e) =
          [if isRateLimitError e then rateLimitInsight else unavailableInsight]) ∧
    rateLimitInsight.id = "fallback-rate-limit" ∧
    rateLimitInsight.type = "warning" ∧
    rateLimitInsight.confidence = 0.7 ∧
    unavailableInsight.id = "fallback-1" ∧
    unavailableInsight.type = "info" ∧
    unavailableInsight.confidence = 0.5 ∧
    (∀ expenses parse now,
        generateExpenseInsights expenses parse now (.ok none) = [unavailableInsight]) ∧
    (∀ expenses parse now response, parse (cleanResponse response) = none →
        generateExpenseInsights expenses parse now (.ok (some response)) =
          [unavailableInsight]) := by
  refine ⟨fun expenses parse now e => ?_, rfl, rfl, rfl, rfl, rfl, rfl,
    fun expenses parse now => rfl, fun expenses parse now response h => ?_⟩
  · by_cases hr : isRateLimitError e <;> simp [generateExpenseInsights, hr]
  · simp [generateExpenseInsights, h]

/-- C2 witness: the two fallback branches discharged at concrete inputs. -/
theorem generateExpenseInsights_error_fallback_witness :
    generateExpenseInsights [] (fun _ => none) 0
        (.error { status := some 429, code := none }) = [rateLimitInsight] ∧
    generateExpenseInsights [] (fun _ => none) 0 (.ok (some "not json")) =
      [unavailableInsight] := by
  constructor
  · have h := generateExpenseInsights_error_fallback.1 [] (fun _ => none) 0
      { status := some 429, code := none }
    simpa [isRateLimitError] using h
  · exact generateExpenseInsights_error_fallback.2.2.2.2.2.2.2.2 [] (fun _ => none) 0
      "not json" rfl

/-- C4 counterexample: a remote response differing from an enumeration member
only in surrounding whitespace is trimmed before validation and accepted —
`categorizeExpense` on content " Food " returns "Food", not "Other" as the
claim states for responses differing from a member only in whitespace. -/
theorem categorizeExpense_whitespace_counterexample :
    categorizeExpense (.ok (some " Food ")) "office lunch" = "Food" ∧
    categorizeExpense (.ok (some " Food ")) "office lunch" ≠ "Other" := by
  constructor <;> decide

/-- C4 (amended): on remote success `categorizeExpense` trims the response
content (an absent content counts as the empty string) and validates the
trimmed text by exact match against the closed enumeration: "Food" is
returned as is, "Groceries" and the casing variant "food" are invalid and
return "Other", absent content returns "Other", and a response differing
from a member only in surrounding whitespace, such as " Food ", is accepted
after trimming. -/
theorem categorizeExpense_success_validation :
    (∀ (description : String) (content : Option String),
        categorizeExpense (.ok content) description =
          if validCategories.contains ((content.map jsTrim).getD "") then
            (content.map jsTrim).getD ""
          else "Other") ∧
    (∀ description, categorizeExpense (.ok (some "Food")) description = "Food") ∧
    (∀ description, categorizeExpense (.ok (some "Groceries")) description = "Other") ∧
    (∀ description, categorizeExpense (.ok (some "food")) description = "Other") ∧
    (∀ description, categorizeExpense (.ok none) description = "Other") ∧
    (∀ description, categorizeExpense (.ok (some " Food ")) description = "Food") :=
  ⟨fun description content => rfl, fun _ => rfl, fun _ => rfl,
    fun _ => rfl, fun _ => rfl, fun _ => rfl⟩

/-- C5: on every execution path — remote success, rate-limit fallback or
generic-error fallback — `categorizeExpense` and the keyword classifier
return a member of the closed set {Food, Transportation, Entertainment,
Shopping, Bills, Healthcare, Other}. -/
theorem category_closed_set :
    (∀ (remote : Except RemoteError (Option String)) (description : String),
        categorizeExpense remote description ∈ validCategories) ∧
    (∀ description, categorizeExpenseLocally description ∈ validCategories) :=
  ⟨fun remote description => categorizeExpense_mem remote description,
    fun description => categorizeExpenseLocally_mem description⟩

/-- C8: when the remote call inside `generateAIAnswer` fails, an error with
numeric status/code 429 yields the fixed temporary-unavailability advisory
string and any other error yields the fixed retry advisory string; the two
strings are distinct constants, and the function is total, so it never
raises to its caller. -/
theorem generateAIAnswer_error_fallback :
    (∀ (question : String) (context : List ExpenseRecord) (e : RemoteError),
        generateAIAnswer question context (.error e) =
          if isRateLimitError e then rateLimitAnswer else unavailableAnswer) ∧
    rateLimitAnswer ≠ unavailableAnswer :=
  ⟨fun question context e => rfl, by decide⟩

/-- C7: on a successful parse, `generateExpenseInsights` fills missing fields
of each array element with defaults — type "info", title "AI Insight",
message "Analysis complete", confidence 0.8 — and in particular an element
lacking the confidence field yields an insight with confidence exactly
0.8. -/
theorem generateExpenseInsights_defaults :
    (∀ (now index : Nat) (insight : RawInsight), insight.type = none →
        (formatInsight now index insight).type = "info") ∧
    (∀ (now index : Nat) (insight : RawInsight), insight.title = none →
        (formatInsight now index insight).title = "AI Insight") ∧
    (∀ (now index : Nat) (insight : RawInsight), insight.message = none →
        (formatInsight now index insight).message = "Analysis complete") ∧
    (∀ (now index : Nat) (insight : RawInsight), insight.confidence = none →
        (formatInsight now index insight).confidence = 0.8) ∧
    (∀ expenses parse now response l, parse (cleanResponse response) = some l →
        generateExpenseInsights expenses parse now (.ok (some response)) =
          l.mapIdx (fun index insight => formatInsight now index insight)) ∧
    generateExpenseInsights []
        (fun _ => some [{ type := some "tip", title := some "Title",
                          message := some "Message", action := none, confidence := none }])
        7 (.ok (some "response")) =
      [{ id := "ai-7-0", type := "tip", title := "Title", message := "Message",
         action := none, confidence := 0.8 }] := by
  refine ⟨fun now index insight h => by simp [formatInsight, strOrDefault, h],
    fun now index insight h => by simp [formatInsight, strOrDefault, h],
    fun now index insight h => by simp [formatInsight, strOrDefault, h],
    fun now index insight h => by simp [formatInsight, numOrDefault, h],
    fun expenses parse now response l h => generateExpenseInsights_parse_ok _ _ _ _ _ h,
    by simp [generateExpenseInsights, formatInsight, strOrDefault, numOrDefault]; decide⟩

/-- C7 witness: the defaulting facts discharged at concrete inputs. -/
theorem generateExpenseInsights_defaults_witness :
    (formatInsight 7 0 { type := none, title := none, message := none,
                         action := none, confidence := none }).confidence = 0.8 ∧
    (formatInsight 7 0 { type := none, title := none, message := none,
                         action := none, confidence := none }).type = "info" ∧
    generateExpenseInsights [] (fun _ => some []) 7 (.ok (some "response")) =
      List.mapIdx (fun index insight => formatInsight 7 index insight) [] :=
  ⟨generateExpenseInsights_defaults.2.2.2.1 7 0 _ rfl,
    generateExpenseInsights_defaults.1 7 0 _ rfl,
    generateExpenseInsights_defaults.2.2.2.2.1 [] (fun _ => some []) 7 "response" [] rfl⟩

/-- C9: the `||` defaulting of `generateExpenseInsights` applies to any falsy
present value, not only to absent fields: a present confidence equal to 0
becomes 0.8, and a present but empty type, title or message receives the
corresponding default. -/
theorem generateExpenseInsights_falsy_defaults :
    (∀ (now index : Nat) (insight : RawInsight), insight.confidence = some 0 →
        (formatInsight now index insight).confidence = 0.8) ∧
    (∀ (now index : Nat) (insight : RawInsight), insight.type = some "" →
        (formatInsight now index insight).type = "info") ∧
    (∀ (now index : Nat) (insight : RawInsight), insight.title = some "" →
        (formatInsight now index insight).title = "AI Insight") ∧
    (∀ (now index : Nat) (insight : RawInsight), insight.message = some "" →
        (formatInsight now index insight).message = "Analysis complete") ∧
    generateExpenseInsights []
        (fun _ => some [{ type := some "", title := some "", message := some "",
                          action := none, confidence := some 0 }])
        3 (.ok (some "response")) =
      [{ id := "ai-3-0", type := "info", title := "AI Insight",
         message := "Analysis complete", action := none, confidence := 0.8 }] := by
  refine ⟨fun now index insight h => by simp [formatInsight, numOrDefault, h],
    fun now index insight h => by simp [formatInsight, strOrDefault, h],
    fun now index insight h => by simp [formatInsight, strOrDefault, h],
    fun now index insight h => by simp [formatInsight, strOrDefault, h],
    by simp [generateExpenseInsights, formatInsight, strOrDefault, numOrDefault]; decide⟩

/-- C9 witness: the falsy-value defaulting discharged at concrete inputs. -/
theorem generateExpenseInsights_falsy_defaults_witness :
    (formatInsight 3 0 { type := some "", title := some "", message := some "",
                         action := none, confidence := some 0 }).confidence = 0.8 ∧
    (formatInsight 3 0 { type := some "", title := some "", message := some "",
                         action := none, confidence := some 0 }).type = "info" :=
  ⟨generateExpenseInsights_falsy_defaults.1 3 0 _ rfl,
    generateExpenseInsights_falsy_defaults.2.1 3 0 _ rfl⟩

/-- C10: `suggestCategory` returns the category "Other" with the fixed
too-short error, independently of the remote outcome, whenever the trimmed
description has fewer than 2 characters (the empty string included); on
every other input it returns the result of `categorizeExpense` on the
trimmed description, with no error. -/
theorem suggestCategory_spec :
    (∀ (remote : Except RemoteError (Option String)) (description : String),
        (jsTrim description).length < 2 →
        suggestCategory remote description =
          { category := "Other", error := some "Description too short for analysis" }) ∧
    (∀ (remote : Except RemoteError (Option String)) (description : String),
        2 ≤ (jsTrim description).length →
        suggestCategory remote description =
          { category := categorizeExpense remote (jsTrim description), error := none }) := by
  constructor
  · intro remote description h
    simp [suggestCategory, h]
  · intro remote description h
    have hne : (description == "") = false := by
      rcases hbe : description == "" with - | -
      · rfl
      · exfalso
        have hd : description = "" := by simpa using hbe
        rw [hd] at h
        exact absurd h (by decide)
    have hd : decide ((jsTrim description).length < 2) = false :=
      decide_eq_false (by omega)
    by_cases hc : categorizeExpense remote (jsTrim description) = "Other"
    · simp [suggestCategory, hne, hd, hc]
    · have hmem := categorizeExpense_mem remote (jsTrim description)
      have hne2 : categorizeExpense remote (jsTrim description) ≠ "" := by
        intro h0
        rw [h0] at hmem
        simp [validCategories] at hmem
      simp [suggestCategory, hne, hd, hc, hne2]

/-- C10 witness: both branches discharged at concrete inputs. -/
theorem suggestCategory_spec_witness :
    suggestCategory (.ok (some "Food")) " a " =
      { category := "Other", error := some "Description too short for analysis" } ∧
    suggestCategory (.ok (some "Food")) " office lunch " =
      { category := categorizeExpense (.ok (some "Food")) (jsTrim " office lunch "),
        error := none } :=
  ⟨suggestCategory_spec.1 (.ok (some "Food")) " a " (by decide),
    suggestCategory_spec.2 (.ok (some "Food")) " office lunch " (by decide)⟩

/-- C3: the keyword classifier lowercases and trims its input and returns the
category of the first keyword set — in the fixed priority order Food,
Transportation, Entertainment, Shopping, Bills, Healthcare — containing a
substring of the normalized description, and "Other" when none matches;
hence a description containing both a Food and a Bills keyword returns
"Food", and the empty and whitespace-only descriptions return "Other". -/
theorem categorizeExpenseLocally_priority :
    (∀ description : String,
        categorizeExpenseLocally description =
          (((keywordTable.find? fun entry =>
              entry.2.any fun keyword =>
                strIncludes (jsTrim (jsToLower description)) keyword).map
            Prod.fst).getD "Other")) ∧
    categorizeExpenseLocally "paid restaurant bill" = "Food" ∧
    categorizeExpenseLocally "" = "Other" ∧
    categorizeExpenseLocally "   " = "Other" := by
  refine ⟨fun description => ?_, by decide, by decide, by decide⟩
  unfold categorizeExpenseLocally keywordTable
  dsimp only
  by_cases h1 : (foodKeywords.any fun keyword =>
      strIncludes (jsTrim (jsToLower description)) keyword) = true
  · simp [List.find?_cons, h1]
  by_cases h2 : (transportKeywords.any fun keyword =>
      strIncludes (jsTrim (jsToLower description)) keyword) = true
  · simp [List.find?_cons, h1, h2]
  by_cases h3 : (entertainmentKeywords.any fun keyword =>
      strIncludes (jsTrim (jsToLower description)) keyword) = true
  · simp [List.find?_cons, h1, h2, h3]
  by_cases h4 : (shoppingKeywords.any fun keyword =>
      strIncludes (jsTrim (jsToLower description)) keyword) = true
  · simp [List.find?_cons, h1, h2, h3, h4]
  by_cases h5 : (billsKeywords.any fun keyword =>
      strIncludes (jsTrim (jsToLower description)) keyword) = true
  · simp [List.find?_cons, h1, h2, h3, h4, h5]
  by_cases h6 : (healthcareKeywords.any fun keyword =>
      strIncludes (jsTrim (jsToLower description)) keyword) = true
  · simp [List.find?_cons, h1, h2, h3, h4, h5, h6]
  · simp [List.find?_cons, h1, h2, h3, h4, h5, h6]

/-- Every list starts with the empty list. -/
theorem charsStartWith_nil (l : List Char) : charsStartWith l [] = true := by
  cases l <;> rfl

/-- A list starts with its own left part. -/
theorem charsStartWith_append (pre l : List Char) :
    charsStartWith (pre ++ l) pre = true := by
  induction pre with
  | nil => exact charsStartWith_nil l
  | cons c cs ih => simp [charsStartWith, ih]

/-- Starting with a longer list implies starting with its left part. -/
theorem charsStartWith_mono (l p q : List Char)
    (h : charsStartWith l (p ++ q) = true) : charsStartWith l p = true := by
  induction p generalizing l with
  | nil => exact charsStartWith_nil l
  | cons c cs ih =>
    cases l with
    | nil => simp [charsStartWith] at h
    | cons a as =>
      simp only [List.cons_append, charsStartWith, Bool.and_eq_true] at h ⊢
      exact ⟨h.1, ih as h.2⟩

/-- `dropWhile` keeps a list whose head fails the test. -/
theorem dropWhile_cons_false {a : Char} (l : List Char) (h : jsIsWs a = false) :
    (a :: l).dropWhile jsIsWs = a :: l := by
  rw [List.dropWhile_cons, h]
  simp

/-- `wsDropLeft` drops a whitespace head. -/
theorem wsDropLeft_cons_ws (a : Char) (l : List Char) (h : jsIsWs a = true) :
    wsDropLeft (a :: l) = wsDropLeft l := by
  simp [wsDropLeft, List.dropWhile_cons, h]

/-- `wsDropLeft` over an append: either the left part is all whitespace and
drops away entirely, or the right part is kept untouched. -/
theorem wsDropLeft_append (x y : List Char) :
    wsDropLeft (x ++ y) = if wsDropLeft x = [] then wsDropLeft y else wsDropLeft x ++ y := by
  induction x with
  | nil => simp [wsDropLeft]
  | cons a xs ih =>
    cases hw : jsIsWs a with
    | true =>
      rw [List.cons_append, wsDropLeft_cons_ws a _ hw, wsDropLeft_cons_ws a _ hw, ih]
    | false =>
      rw [List.cons_append,
        show wsDropLeft (a :: (xs ++ y)) = a :: (xs ++ y) from dropWhile_cons_false _ hw,
        show wsDropLeft (a :: xs) = a :: xs from dropWhile_cons_false _ hw]
      simp

/-- The closing fence text reversed. -/
theorem close_rev : ("\n```".data).reverse = fence3 ++ ['\n'] := by decide

/-- The fence is a palindrome. -/
theorem fence3_rev : fence3.reverse = fence3 := by decide

/-- Length of the fence. -/
theorem fence3_len : fence3.length = 3 := by decide

/-- Length of the json fence opener. -/
theorem fenceJson_len : fenceJson.length = 7 := by decide

/-- `stripClosingFence` on a text ending in newline-plus-fence removes the
fence and the whitespace run before it: what remains is the text with its
own trailing whitespace dropped. -/
theorem stripClosingFence_close (l : List Char) :
    stripClosingFence (l ++ "\n```".data) = wsDropRight l := by
  unfold stripClosingFence
  have hend : charsEndWith (l ++ "\n```".data) fence3 = true := by
    unfold charsEndWith
    rw [List.reverse_append, close_rev, fence3_rev, List.append_assoc]
    exact charsStartWith_append fence3 _
  rw [hend]
  have hd : dropRightN (l ++ "\n```".data) 3 = l ++ ['\n'] := by
    unfold dropRightN
    rw [List.reverse_append, close_rev, List.append_assoc,
      List.drop_left' fence3_len, List.reverse_append, List.reverse_reverse]
    rfl
  simp only [if_true]
  rw [hd]
  unfold wsDropRight
  rw [List.reverse_append]
  have h1 : (['\n'] : List Char).reverse ++ l.reverse = '\n' :: l.reverse := rfl
  rw [h1, List.dropWhile_cons]
  have h2 : jsIsWs '\n' = true := rfl
  rw [h2]
  simp only [if_true]

/-- A text opening with the json fence has no leading whitespace. -/
theorem wsDropLeft_fenceJson (X : List Char) :
    wsDropLeft (fenceJson ++ X) = fenceJson ++ X := by
  have h1 : fenceJson ++ X = fenceChar :: ([fenceChar, fenceChar] ++ "json".data ++ X) := by
    simp [fenceJson, fence3]
  rw [h1]
  exact dropWhile_cons_false _ (by decide)

/-- A text opening with a fence has no leading whitespace. -/
theorem wsDropLeft_fence3 (X : List Char) :
    wsDropLeft (fence3 ++ X) = fence3 ++ X := by
  have h1 : fence3 ++ X = fenceChar :: ([fenceChar, fenceChar] ++ X) := by
    simp [fence3]
  rw [h1]
  exact dropWhile_cons_false _ (by decide)

/-- A text closing with a fence has no trailing whitespace. -/
theorem wsDropRight_close (X : List Char) :
    wsDropRight (X ++ "\n```".data) = X ++ "\n```".data := by
  unfold wsDropRight
  rw [List.reverse_append, close_rev]
  have h1 : (fence3 ++ ['\n']) ++ X.reverse
      = fenceChar :: ([fenceChar, fenceChar, '\n'] ++ X.reverse) := by
    simp [fence3]
  rw [h1, dropWhile_cons_false _ (by decide), ← h1, ← close_rev, ← List.reverse_append,
    List.reverse_reverse]

/-- After the opener and the newline are gone, cleaning the remaining
`payload ++ newline ++ fence` text yields exactly the trimmed payload. -/
theorem tail_clean (l : List Char) :
    stripClosingFence (wsDropLeft (l ++ "\n```".data)) = trimChars l := by
  rw [wsDropLeft_append]
  cases hw : wsDropLeft l with
  | nil =>
    simp only [if_true]
    rw [show trimChars l = [] from by rw [trimChars, hw]; rfl]
    decide
  | cons a as =>
    rw [← hw]
    simp only [hw, reduceCtorEq, if_false]
    rw [stripClosingFence_close]
    unfold trimChars
    rw [hw]

/-- The json opener splits as fence opener plus newline. -/
theorem open_json_split : "```json\n".data = fenceJson ++ ['\n'] := by decide

/-- The plain opener splits as fence plus newline. -/
theorem open_plain_split : "```\n".data = fence3 ++ ['\n'] := by decide

/-- Cleaning a payload wrapped in a json code fence yields the trimmed
payload. -/
theorem cleanChars_fenced_json (l : List Char) :
    cleanChars ("```json\n".data ++ l ++ "\n```".data) = trimChars l := by
  have hshape : "```json\n".data ++ l ++ "\n```".data
      = fenceJson ++ ('\n' :: (l ++ "\n```".data)) := by
    rw [open_json_split]
    simp
  rw [hshape]
  unfold cleanChars
  have htrim : trimChars (fenceJson ++ ('\n' :: (l ++ "\n```".data)))
      = fenceJson ++ ('\n' :: (l ++ "\n```".data)) := by
    unfold trimChars
    rw [wsDropLeft_fenceJson]
    rw [show fenceJson ++ ('\n' :: (l ++ "\n```".data))
        = (fenceJson ++ ('\n' :: l)) ++ "\n```".data by simp]
    rw [wsDropRight_close]
  rw [htrim]
  dsimp only
  rw [show charsStartWith (fenceJson ++ ('\n' :: (l ++ "\n```".data))) fenceJson = true from
    charsStartWith_append fenceJson _]
  simp only [if_true]
  rw [List.drop_left' fenceJson_len]
  rw [wsDropLeft_cons_ws '\n' _ rfl]
  exact tail_clean l

/-- A plain fence followed by a newline is not a json fence opener. -/
theorem not_startsWith_json (X : List Char) :
    charsStartWith (fence3 ++ ('\n' :: X)) fenceJson = false := by
  have h1 : fence3 ++ ('\n' :: X) = fenceChar :: fenceChar :: fenceChar :: '\n' :: X := by
    simp [fence3]
  have h2 : fenceJson = fenceChar :: fenceChar :: fenceChar :: 'j' :: "son".data := by decide
  have h3 : ('\n' == 'j') = false := by decide
  rw [h1, h2]
  simp [charsStartWith, h3]

/-- Cleaning a payload wrapped in a plain code fence yields the trimmed
payload. -/
theorem cleanChars_fenced_plain (l : List Char) :
    cleanChars ("```\n".data ++ l ++ "\n```".data) = trimChars l := by
  have hshape : "```\n".data ++ l ++ "\n```".data
      = fence3 ++ ('\n' :: (l ++ "\n```".data)) := by
    rw [open_plain_split]
    simp
  rw [hshape]
  unfold cleanChars
  have htrim : trimChars (fence3 ++ ('\n' :: (l ++ "\n```".data)))
      = fence3 ++ ('\n' :: (l ++ "\n```".data)) := by
    unfold trimChars
    rw [wsDropLeft_fence3]
    rw [show fence3 ++ ('\n' :: (l ++ "\n```".data))
        = (fence3 ++ ('\n' :: l)) ++ "\n```".data by simp]
    rw [wsDropRight_close]
  rw [htrim]
  dsimp only
  rw [not_startsWith_json]
  rw [show charsStartWith (fence3 ++ ('\n' :: (l ++ "\n```".data))) fence3 = true from
    charsStartWith_append fence3 _]
  simp only [Bool.false_eq_true, if_false, if_true]
  rw [List.drop_left' fence3_len]
  rw [wsDropLeft_cons_ws '\n' _ rfl]
  exact tail_clean l

/-- Cleaning an unfenced payload — one whose trimmed text does not open with
a fence — yields the trimmed payload. -/
theorem cleanChars_nofence (l : List Char)
    (hfence : charsStartWith (trimChars l) fence3 = false) :
    cleanChars l = trimChars l := by
  unfold cleanChars
  dsimp only
  have hj : charsStartWith (trimChars l) fenceJson = false := by
    cases hcs : charsStartWith (trimChars l) fenceJson with
    | false => rfl
    | true =>
      exfalso
      have := charsStartWith_mono (trimChars l) fence3 "json".data hcs
      rw [hfence] at this
      exact Bool.false_ne_true this
  rw [hj, hfence]
  simp

/-- C6: a successful remote response consisting of a payload wrapped in
Markdown code fences (```json ... ``` or ``` ... ```) is stripped of the
fences before JSON parsing, so `generateExpenseInsights` produces exactly
the result it produces for the unfenced payload, for every payload whose
trimmed text does not itself open with a fence and for every parse
function. -/
theorem generateExpenseInsights_fence_stripping
    (expenses : List ExpenseRecord) (parse : String → Option (List RawInsight))
    (now : Nat) (P : String)
    (hfence : jsStartsWith (jsTrim P) "```" = false) :
    generateExpenseInsights expenses parse now
        (.ok (some ("```json\n" ++ P ++ "\n```"))) =
      generateExpenseInsights expenses parse now (.ok (some P)) ∧
    generateExpenseInsights expenses parse now
        (.ok (some ("```\n" ++ P ++ "\n```"))) =
      generateExpenseInsights expenses parse now (.ok (some P)) := by
  have h3 : charsStartWith (trimChars P.data) fence3 = false := by
    have hf3 : "```".data = fence3 := by decide
    rw [← hf3]
    exact hfence
  have hcleanP : cleanResponse P = jsTrim P := by
    unfold cleanResponse jsTrim
    rw [cleanChars_nofence P.data h3]
  have hclean1 : cleanResponse ("```json\n" ++ P ++ "\n```") = jsTrim P := by
    unfold cleanResponse jsTrim
    have hd : ("```json\n" ++ P ++ "\n```").data
        = "```json\n".data ++ P.data ++ "\n```".data := rfl
    rw [hd, cleanChars_fenced_json P.data]
  have hclean2 : cleanResponse ("```\n" ++ P ++ "\n```") = jsTrim P := by
    unfold cleanResponse jsTrim
    have hd : ("```\n" ++ P ++ "\n```").data
        = "```\n".data ++ P.data ++ "\n```".data := rfl
    rw [hd, cleanChars_fenced_plain P.data]
  constructor
  · show (match parse (cleanResponse ("```json\n" ++ P ++ "\n```")) with
      | none => [unavailableInsight]
      | some insights =>
        insights.mapIdx fun index insight => formatInsight now index insight) =
      generateExpenseInsights expenses parse now (.ok (some P))
    rw [hclean1]
    rw [show generateExpenseInsights expenses parse now (.ok (some P))
        = (match parse (cleanResponse P) with
          | none => [unavailableInsight]
          | some insights =>
            insights.mapIdx fun index insight => formatInsight now index insight) from rfl]
    rw [hcleanP]
  · show (match parse (cleanResponse ("```\n" ++ P ++ "\n```")) with
      | none => [unavailableInsight]
      | some insights =>
        insights.mapIdx fun index insight => formatInsight now index insight) =
      generateExpenseInsights expenses parse now (.ok (some P))
    rw [hclean2]
    rw [show generateExpenseInsights expenses parse now (.ok (some P))
        = (match parse (cleanResponse P) with
          | none => [unavailableInsight]
          | some insights =>
            insights.mapIdx fun index insight => formatInsight now index insight) from rfl]
    rw [hcleanP]

/-- C6 witness: the fence-stripping equivalence discharged at the concrete
payload "[]". -/
theorem generateExpenseInsights_fence_stripping_witness :
    generateExpenseInsights [] (fun _ => none) 0
        (.ok (some ("```json\n" ++ "[]" ++ "\n```"))) =
      generateExpenseInsights [] (fun _ => none) 0 (.ok (some "[]")) :=
  (generateExpenseInsights_fence_stripping [] (fun _ => none) 0 "[]"
    (by decide)).1
